import Mathlib

/-!
Shallow embedding of `lib/BioPythonGraphics.py` (region-diagram rendering
helpers) and proofs about it.

Conventions used in the embedding:
* Python (2) integers are `ℤ`; Python float arithmetic on the small rational
  quantities appearing here is modelled exactly by `ℚ`.
* Integer division `/` of Python 2 on `int` operands floors, hence `Int.fdiv`.
* `int(x)` applied to a float truncates toward zero, modelled by `pyint`.
* Fallible code returns `Except PyErr _`; the constructors of `PyErr` record
  which Python exception (or spec-level error name) a failure corresponds to.
* External collaborators (`getGeneInfo`, `getGeneNeighborhoods`,
  `getGenesInRegion`, `getSanitizedContigList`, `splitTblastn`) are passed in
  as function parameters: the module under verification only consumes them.
-/

namespace BioPythonGraphics

/-- Python exceptions / spec error names that the embedded code can surface. -/
inductive PyErr where
  /-- `ValueError` from `starts, ends = zip(*location)` on zero features;
  the spec calls this failure `EmptyInputError`. -/
  | emptyInput
  /-- `UnboundLocalError`: the center-feature variables were never assigned. -/
  | unboundLocal
  /-- `KeyError`: a cluster id missing from the supplied color map
  (spec: `UnmappedClusterColorError`). -/
  | keyError
  /-- `CenterFeatureNotFoundError` as named by the spec; the Python source has
  no such exception, the constructor exists so the spec's claim is statable. -/
  | centerFeatureNotFound
  /-- `ZeroDivisionError`. -/
  | zeroDivision
  /-- `ValueError` from a collaborator (e.g. `splitTblastn`). -/
  | valueError
deriving DecidableEq

/-- A BioPython `SeqFeature` as used by this module: a `FeatureLocation`
(start, end — stored in either order, see the spec's strand invariant), a
strand, an id and the `cluster_id` qualifier. -/
structure Feature where
  start : ℤ
  end_ : ℤ
  strand : ℤ
  id : String
  cluster_id : ℤ
deriving DecidableEq

/-- A row of the external `getGeneInfo` result: index 5 is the start, index 6
the stop, index 8 the strand (positional layout per spec §6). -/
structure GeneInfo where
  start : ℤ
  stop : ℤ
  strand : ℤ
deriving DecidableEq

/-- A row of the external `getGeneNeighborhoods` result: index 1 is the
neighboring gene's id, index 8 its cluster id for the run. -/
structure Neighbor where
  gene : String
  cluster : ℤ
deriving DecidableEq

/-- A row of the external `getGeneInfo` result as consumed by the tBLASTn
neighbor search: index 0 is the gene id, index 5 the start, index 6 the end. -/
structure GeneInfoRow where
  gene : String
  start : ℤ
  stop : ℤ
deriving DecidableEq

/-- `int()` conversion of a (here: rational-valued) Python float:
truncation toward zero. -/
def pyint (x : ℚ) : ℤ := if 0 ≤ x then ⌊x⌋ else -⌊-x⌋

/-! ### Functions for making SeqFeature objects (lines 25-114) -/

/-- Embedding of `makeSeqFeature` (lines 25-38). `getGeneInfo₁` is the
external lookup `getGeneInfo([geneid], cur)[0]`. -/
def makeSeqFeature (geneid : String) (getGeneInfo₁ : String → GeneInfo) : Feature :=
  let geneinfo := getGeneInfo₁ geneid
  { start := geneinfo.start, end_ := geneinfo.stop, strand := geneinfo.strand,
    id := geneid, cluster_id := -1 }

/-- Embedding of `makeSeqFeaturesForGeneNeighbors` (lines 40-58). The gene
name is generic in its type because the caller at line 110 may pass Python's
`None` (modelled by `Option String`). The loop that appends one feature per
neighbor row, overwriting its `cluster_id` qualifier, is a `map`. -/
def makeSeqFeaturesForGeneNeighbors {α : Type} (genename : α)
    (getGeneNeighborhoods : α → List Neighbor)
    (getGeneInfo₁ : String → GeneInfo) : List Feature :=
  let outdata := getGeneNeighborhoods genename
  outdata.map (fun neargene =>
    { makeSeqFeature neargene.gene getGeneInfo₁ with cluster_id := neargene.cluster })

/-- The synthetic `SeqFeature` built for the tBLASTn hit itself
(lines 81-88): strand `+1` when `start < stop`, else `-1`, with the
`cluster_id` placeholder `-1`. -/
def tblastnFeature (tblastn_id : String) (start stop : ℤ) : Feature :=
  { start := start, end_ := stop,
    strand := if start < stop then 1 else -1,
    id := tblastn_id, cluster_id := -1 }

/-- The warning written to stderr at line 93. -/
def noNeighborsWarning (tblastn_id : String) (N : ℤ) (contig : String) : String :=
  "WARNING: No neighboring genes found for TBLASTN hit " ++ tblastn_id ++
    " within " ++ toString N ++ " nucleotides in contig " ++ contig ++ "\n"

/-- Embedding of `makeSeqObjectsForTblastnNeighbors` (lines 60-114).
All database collaborators are parameters; `splitTblastn` may fail with a
`ValueError` (line 72 comment in the source). The returned pair carries the
feature list together with the list of warnings written to stderr. -/
def makeSeqObjectsForTblastnNeighbors (tblastn_id : String)
    (sanitizedToNot : String → Option String)
    (splitTblastn : String → Except PyErr (String × ℤ × ℤ))
    (getGenesInRegion : String → ℤ → ℤ → List String)
    (getGeneInfoMany : List String → List GeneInfoRow)
    (getGeneNeighborhoods : Option String → List Neighbor)
    (getGeneInfo₁ : String → GeneInfo)
    (N : ℤ) : Except PyErr (List Feature × List String) :=
  match splitTblastn tblastn_id with
  | Except.error e => Except.error e
  | Except.ok (contig₀, start, stop) =>
    let contig := (sanitizedToNot contig₀).getD contig₀
    let tblastn_feature := tblastnFeature tblastn_id start stop
    let neighboring_genes := getGenesInRegion contig (start - N) (stop + N)
    if neighboring_genes.length = 0 then
      Except.ok ([tblastn_feature], [noNeighborsWarning tblastn_id N contig])
    else
      let neighboring_geneinfo := getGeneInfoMany neighboring_genes
      let acc := neighboring_geneinfo.foldl
        (fun acc geneinfo =>
          let distance := min (min |geneinfo.start - start| |geneinfo.stop - start|)
                              (min |geneinfo.start - stop| |geneinfo.stop - stop|)
          if distance < acc.1 then (distance, some geneinfo.gene) else acc)
        ((N, (none : Option String)))
      let mingene := acc.2
      let neighboring_features :=
        makeSeqFeaturesForGeneNeighbors mingene getGeneNeighborhoods getGeneInfo₁
      Except.ok (neighboring_features ++ [tblastn_feature], [])

/-! ### Drawing functions (lines 116-188) -/

/-- `max(xs)` of a non-empty Python list, split as head and tail. -/
def pymax (x : ℤ) (xs : List ℤ) : ℤ := xs.foldl max x

/-- `min(xs)` of a non-empty Python list, split as head and tail. -/
def pymin (x : ℤ) (xs : List ℤ) : ℤ := xs.foldl min x

/-- Embedding of `regionlength` (lines 120-127). On an empty feature list the
unpacking `starts, ends = zip(*location)` raises `ValueError`
(spec: `EmptyInputError`). Otherwise it returns
`(max(max(starts), max(ends)), min(min(starts), min(ends)))`. -/
def regionlength : List Feature → Except PyErr (ℤ × ℤ)
  | [] => Except.error PyErr.emptyInput
  | f :: fs =>
      Except.ok
        (max (pymax f.start (fs.map (fun g => g.start)))
             (pymax f.end_ (fs.map (fun g => g.end_))),
         min (pymin f.start (fs.map (fun g => g.start)))
             (pymin f.end_ (fs.map (fun g => g.end_))))

/-- All start and end coordinates of a feature list (the coordinates
`regionlength` ranges over). -/
def coords (l : List Feature) : List ℤ :=
  l.map (fun f => f.start) ++ l.map (fun f => f.end_)

/-- The quantities computed by `make_region_drawing` (lines 172-181) before it
hands off to the external drawing backend: the region extent, the page width
in drawing units, the center-gene midpoint, the two spans, the two pixel
offsets, the page fractions `xl`, `xr` passed to `gd_diagram.draw`, and
whether line 186 flips the image. -/
structure Layout where
  start : ℤ
  end_ : ℤ
  pagew_px : ℤ
  midcentergene : ℤ
  l2mid : ℤ
  r2mid : ℤ
  roffset : ℤ
  loffset : ℤ
  xl : ℚ
  xr : ℚ
  flip : Bool
deriving DecidableEq

/-- The `for feature in seqfeatures` loop of `make_region_drawing`
(lines 157-170): every feature's cluster id is looked up in `getcolor`
(`KeyError` if absent), and each feature whose id equals `centergenename`
overwrites the center variables, so the last match wins; `none` means they
were never assigned. -/
def centerScan (getcolor : ℤ → Option (ℚ × ℚ × ℚ)) (centergenename : String) :
    List Feature → Option (ℤ × ℤ × ℤ) → Except PyErr (Option (ℤ × ℤ × ℤ))
  | [], acc => Except.ok acc
  | f :: fs, acc =>
      let acc' := if f.id = centergenename then some (f.start, f.end_, f.strand) else acc
      match getcolor f.cluster_id with
      | none => Except.error PyErr.keyError
      | some _ => centerScan getcolor centergenename fs acc'

/-- Embedding of the geometry/error layer of `make_region_drawing`
(lines 129-188); the rasterization itself is the external backend. `scale` is
the constant 20 of line 154. Python-2 `/` on ints floors (`Int.fdiv`); the
divisions by `pagew_px` at line 181 are float divisions (the operands were
wrapped in `float()` at lines 178-179), and raise `ZeroDivisionError` when
`pagew_px` is 0. When no feature matched `centergenename`, line 175 reads the
never-assigned `centerend`/`centerdstart` and raises `UnboundLocalError`. -/
def make_region_drawing (seqfeatures : List Feature)
    (getcolor : ℤ → Option (ℚ × ℚ × ℚ)) (centergenename : String)
    (maxwidth : ℤ) : Except PyErr Layout :=
  match centerScan getcolor centergenename seqfeatures none with
  | Except.error e => Except.error e
  | Except.ok centerVars =>
    match regionlength seqfeatures with
    | Except.error e => Except.error e
    | Except.ok (start, end_) =>
      let pagew_px := Int.fdiv maxwidth 20
      match centerVars with
      | none => Except.error PyErr.unboundLocal
      | some (centerdstart, centerend, centerdstrand) =>
        let midcentergene := Int.fdiv |centerend - centerdstart| 2 + min centerdstart centerend
        let l2mid := |midcentergene - start|
        let r2mid := |midcentergene - end_|
        let roffset := Int.fdiv pagew_px 2 - Int.fdiv l2mid 20
        let loffset := Int.fdiv pagew_px 2 - Int.fdiv r2mid 20
        if pagew_px = 0 then Except.error PyErr.zeroDivision
        else
          Except.ok
            { start := start, end_ := end_, pagew_px := pagew_px,
              midcentergene := midcentergene, l2mid := l2mid, r2mid := r2mid,
              roffset := roffset, loffset := loffset,
              xl := (loffset : ℚ) / (pagew_px : ℚ), xr := (roffset : ℚ) / (pagew_px : ℚ),
              flip := centerdstrand = -1 }

/-! ### Other utilities (lines 191-223) -/

/-- The hex digit character `0`-`9a`-`f` for a value below 16. -/
def hexDigit (n : Nat) : Char :=
  if n < 10 then Char.ofNat (48 + n) else Char.ofNat (87 + n)

/-- Digits of `%x` (lowercase, most significant first); the first argument is
fuel, `hexDigitsAux n n` always has enough. -/
def hexDigitsAux : Nat → Nat → List Char
  | 0, n => [hexDigit (n % 16)]
  | fuel + 1, n =>
      if n < 16 then [hexDigit n]
      else hexDigitsAux fuel (n / 16) ++ [hexDigit (n % 16)]

/-- The digits of `'%x' % n` for `n ≥ 0`. -/
def hexDigitsOf (n : Nat) : List Char := hexDigitsAux n n

/-- Python's `'%02x' % n`: lowercase hex, left-padded with zeros to width 2;
for negative `n` the minus sign counts toward the width. -/
def fmt02x (n : ℤ) : String :=
  let ds := hexDigitsOf n.natAbs
  if n < 0 then ⟨'-' :: (List.replicate (1 - ds.length) '0' ++ ds)⟩
  else ⟨List.replicate (2 - ds.length) '0' ++ ds⟩

/-- A byte value as exactly two lowercase hex digits (the shape `'%02x'`
takes on inputs in `[0, 255]`). -/
def hex2 (k : Nat) : String := ⟨[hexDigit (k / 16), hexDigit (k % 16)]⟩

/-- Embedding of `RGB_to_hex` (lines 195-202): each channel is converted with
`n = lambda x: int(x*255)` (truncation!) and formatted with
`'#%02x%02x%02x'`. -/
def RGB_to_hex (RGBlist : List (ℚ × ℚ × ℚ)) : List String :=
  let n := fun (x : ℚ) => pyint (x * 255)
  let RGB256 := RGBlist.map (fun t => (n t.1, n t.2.1, n t.2.2))
  RGB256.map (fun t => "#" ++ fmt02x t.1 ++ fmt02x t.2.1 ++ fmt02x t.2.2)

/-- The hex conversion as the spec's words describe it (spec §4.1): each
channel equals `round(channel × 255)`, zero-padded 2-digit hex. Identical to
`RGB_to_hex` except for `round` in place of `int`. -/
def RGB_to_hex_round (RGBlist : List (ℚ × ℚ × ℚ)) : List String :=
  let n := fun (x : ℚ) => round (x * 255)
  let RGB256 := RGBlist.map (fun t => (n t.1, n t.2.1, n t.2.2))
  RGB256.map (fun t => "#" ++ fmt02x t.1 ++ fmt02x t.2.1 ++ fmt02x t.2.2)

/-- `math.ceil(math.sqrt(N))` (exact for every `N` small enough that the
float square root is faithful, amply covering `N ≤ 10000`). -/
def pyceilsqrt (n : Nat) : Nat :=
  if Nat.sqrt n * Nat.sqrt n = n then Nat.sqrt n else Nat.sqrt n + 1

/-- `numpy.unique`: the sorted list of distinct values. -/
def npUnique (l : List ℤ) : List ℤ := List.insertionSort (· ≤ ·) l.dedup

/-- One branch of `colorsys.hsv_to_rgb` after the sector index and fractional
part have been computed; `p`, `q`, `t` are inlined:
`p = v*(1-s)`, `q = v*(1-s*f)`, `t = v*(1-s*(1-f))`. The catch-all case is
the `i == 5` branch (the index is always reduced mod 6). -/
def hsvSector : Nat → ℚ → ℚ → ℚ → ℚ × ℚ × ℚ
  | 0, v, s, f => (v, v * (1 - s * (1 - f)), v * (1 - s))
  | 1, v, s, f => (v * (1 - s * f), v, v * (1 - s))
  | 2, v, s, f => (v * (1 - s), v, v * (1 - s * (1 - f)))
  | 3, v, s, f => (v * (1 - s), v * (1 - s * f), v)
  | 4, v, s, f => (v * (1 - s * (1 - f)), v * (1 - s), v)
  | _, v, s, f => (v, v * (1 - s), v * (1 - s * f))

/-- `colorsys.hsv_to_rgb` over exact rationals: `i = int(h*6.0)`,
`f = h*6.0 - i`, then the sector branch on `i % 6`. -/
def hsv_to_rgb (h s v : ℚ) : ℚ × ℚ × ℚ :=
  if s = 0 then (v, v, v)
  else hsvSector ((pyint (h * 6) % 6).toNat) v s (h * 6 - pyint (h * 6))

/-- The hue grid `H = [x*1.0/perm for x in range(perm)]` (line 213). -/
def hueList (perm : Nat) : List ℚ :=
  (List.range perm).map (fun x : ℕ => (x : ℚ) / (perm : ℚ))

/-- The saturation grid `S = [(x*1.0/perm)+0.2 for x in range(perm)]`
(line 214). -/
def satList (perm : Nat) : List ℚ :=
  (List.range perm).map (fun x : ℕ => (x : ℚ) / (perm : ℚ) + 1 / 5)

/-- `itertools.product(H, S)` (line 218): all (hue, saturation) pairs, hues
outermost — exactly the enumeration order of `List.product`. -/
def hsGrid (perm : Nat) : List (ℚ × ℚ) :=
  (hueList perm).product (satList perm)

/-- Embedding of `colormap` (lines 204-223). `values` is the sorted
deduplication `numpy.unique(valuelist)`; `perm = ceil(sqrt(N))`;
`zip(H, S, V)` truncates the `perm²`-long grid to the length `N` of
`V = [0.7]*N`; each grid point is converted with `hsv_to_rgb` at value 0.7;
the resulting dict `dict(zip(values, RGB[:N]))` is the association list of
its key/value pairs (the keys are distinct, so no entry is overwritten). -/
def colormap (valuelist : List ℤ) : List (ℤ × (ℚ × ℚ × ℚ)) :=
  (npUnique valuelist).zip
    (((hsGrid (pyceilsqrt (npUnique valuelist).length)).take (npUnique valuelist).length).map
      (fun p => hsv_to_rgb p.1 p.2 (7 / 10)))

/-! ### Helper lemmas -/

theorem pymax_spec (xs : List ℤ) : ∀ x : ℤ,
    pymax x xs ∈ x :: xs ∧ ∀ y ∈ x :: xs, y ≤ pymax x xs := by
  induction xs with
  | nil => intro x; simp [pymax]
  | cons a xs ih =>
    intro x
    have step : pymax x (a :: xs) = pymax (max x a) xs := rfl
    obtain ⟨hmem, hle⟩ := ih (max x a)
    constructor
    · rw [step]
      rcases List.mem_cons.mp hmem with h | h
      · rcases max_choice x a with hx | hx <;> rw [h, hx] <;> simp
      · simp [h]
    · intro y hy
      rw [step]
      rcases List.mem_cons.mp hy with h | h
      · exact le_trans (h.le.trans (le_max_left x a)) (hle _ (List.mem_cons_self _ _))
      · rcases List.mem_cons.mp h with h' | h'
        · exact le_trans (h'.le.trans (le_max_right x a)) (hle _ (List.mem_cons_self _ _))
        · exact hle _ (List.mem_cons_of_mem _ h')

theorem pymin_spec (xs : List ℤ) : ∀ x : ℤ,
    pymin x xs ∈ x :: xs ∧ ∀ y ∈ x :: xs, pymin x xs ≤ y := by
  induction xs with
  | nil => intro x; simp [pymin]
  | cons a xs ih =>
    intro x
    have step : pymin x (a :: xs) = pymin (min x a) xs := rfl
    obtain ⟨hmem, hle⟩ := ih (min x a)
    constructor
    · rw [step]
      rcases List.mem_cons.mp hmem with h | h
      · rcases min_choice x a with hx | hx <;> rw [h, hx] <;> simp
      · simp [h]
    · intro y hy
      rw [step]
      rcases List.mem_cons.mp hy with h | h
      · exact le_trans (hle _ (List.mem_cons_self _ _)) ((min_le_left x a).trans h.ge)
      · rcases List.mem_cons.mp h with h' | h'
        · exact le_trans (hle _ (List.mem_cons_self _ _)) ((min_le_right x a).trans h'.ge)
        · exact hle _ (List.mem_cons_of_mem _ h')

/-! ### Claim theorems -/

/-- C2: for every non-empty feature list, `regionlength` returns the pair
(maximum over all start and end coordinates, minimum over all start and end
coordinates); hence the returned "start" is ≥ the returned "end" and both are
coordinates of some feature. -/
theorem regionlength_extent (l : List Feature) (h : l ≠ []) :
    ∃ s e, regionlength l = Except.ok (s, e) ∧ e ≤ s ∧
      s ∈ coords l ∧ e ∈ coords l ∧ ∀ x ∈ coords l, e ≤ x ∧ x ≤ s := by
  match l with
  | [] => exact absurd rfl h
  | f :: fs =>
    obtain ⟨hsmem, hsle⟩ := pymax_spec (fs.map (fun g => g.start)) f.start
    obtain ⟨hemem, hele⟩ := pymax_spec (fs.map (fun g => g.end_)) f.end_
    obtain ⟨hsmem', hsle'⟩ := pymin_spec (fs.map (fun g => g.start)) f.start
    obtain ⟨hemem', hele'⟩ := pymin_spec (fs.map (fun g => g.end_)) f.end_
    have hstartList : f.start :: fs.map (fun g => g.start) = (f :: fs).map (fun g => g.start) := rfl
    have hendList : f.end_ :: fs.map (fun g => g.end_) = (f :: fs).map (fun g => g.end_) := rfl
    refine ⟨_, _, rfl, ?_, ?_, ?_, ?_⟩
    · -- min ≤ some coordinate ≤ max
      have h1 : pymin f.start (fs.map (fun g => g.start)) ≤ f.start :=
        hsle' _ (List.mem_cons_self _ _)
      have h2 : f.start ≤ pymax f.start (fs.map (fun g => g.start)) :=
        hsle _ (List.mem_cons_self _ _)
      calc min (pymin f.start (fs.map (fun g => g.start)))
              (pymin f.end_ (fs.map (fun g => g.end_)))
          ≤ f.start := le_trans (min_le_left _ _) h1
        _ ≤ max (pymax f.start (fs.map (fun g => g.start)))
              (pymax f.end_ (fs.map (fun g => g.end_))) :=
            le_trans h2 (le_max_left _ _)
    · rcases max_choice (pymax f.start (fs.map (fun g => g.start)))
        (pymax f.end_ (fs.map (fun g => g.end_))) with hx | hx <;> rw [hx]
      · exact List.mem_append_left _ (hstartList ▸ hsmem)
      · exact List.mem_append_right _ (hendList ▸ hemem)
    · rcases min_choice (pymin f.start (fs.map (fun g => g.start)))
        (pymin f.end_ (fs.map (fun g => g.end_))) with hx | hx <;> rw [hx]
      · exact List.mem_append_left _ (hstartList ▸ hsmem')
      · exact List.mem_append_right _ (hendList ▸ hemem')
    · intro x hx
      rcases List.mem_append.mp hx with hx | hx
      · exact ⟨le_trans (min_le_left _ _) (hsle' _ (hstartList ▸ hx)),
          le_trans (hsle _ (hstartList ▸ hx)) (le_max_left _ _)⟩
      · exact ⟨le_trans (min_le_right _ _) (hele' _ (hendList ▸ hx)),
          le_trans (hele _ (hendList ▸ hx)) (le_max_right _ _)⟩

/-- Witness for C2 at a concrete two-feature list. -/
theorem regionlength_extent_witness :
    ([⟨100, 500, 1, "a", 0⟩, ⟨500, 900, 1, "b", 0⟩] : List Feature) ≠ [] ∧
    (∃ s e, regionlength [⟨100, 500, 1, "a", 0⟩, ⟨500, 900, 1, "b", 0⟩] = Except.ok (s, e) ∧
      e ≤ s ∧ s ∈ coords [⟨100, 500, 1, "a", 0⟩, ⟨500, 900, 1, "b", 0⟩] ∧
      e ∈ coords [⟨100, 500, 1, "a", 0⟩, ⟨500, 900, 1, "b", 0⟩] ∧
      ∀ x ∈ coords [⟨100, 500, 1, "a", 0⟩, ⟨500, 900, 1, "b", 0⟩], e ≤ x ∧ x ≤ s) :=
  ⟨by decide, regionlength_extent _ (by decide)⟩

/-- C1: on features spanning [100,500] and [500,900] (both strand +1) with the
second one as center (midpoint 700), page width 400 px and scale 20, the
layout computes region = (900,100), pageWidthUnits (`pagew_px`) = 20,
leftSpan (`l2mid`) = 200, rightSpan (`r2mid`) = 600, rightOffsetPx
(`roffset`) = 0, leftOffsetPx (`loffset`) = -20, and page fractions
`(xl, xr) = (-1.0, 0.0)`. -/
theorem make_region_drawing_example :
    make_region_drawing [⟨100, 500, 1, "a", 1⟩, ⟨500, 900, 1, "b", 2⟩]
        (fun _ => some (0, 0, 0)) "b" 400 =
      Except.ok { start := 900, end_ := 100, pagew_px := 20, midcentergene := 700,
                  l2mid := 200, r2mid := 600, roffset := 0, loffset := -20,
                  xl := -1, xr := 0, flip := false } := by
  simp only [make_region_drawing, centerScan, regionlength, pymax, pymin]
  norm_num [(show Int.fdiv 400 20 = 20 from rfl), (show Int.fdiv 400 2 = 200 from rfl),
    (show Int.fdiv 200 20 = 10 from rfl), (show Int.fdiv 600 20 = 30 from rfl),
    (show Int.fdiv 20 2 = 10 from rfl), Layout.mk.injEq]

/-- C3 (counterexample): when the external neighbor lookup returns an empty
result, `makeSeqFeaturesForGeneNeighbors` returns the empty list, not the
one-element list holding the gene's own feature that the spec promises. -/
theorem gene_neighbors_empty_counterexample :
    makeSeqFeaturesForGeneNeighbors "g1" (fun _ : String => ([] : List Neighbor))
        (fun _ => ⟨100, 500, 1⟩) = [] ∧
    makeSeqFeaturesForGeneNeighbors "g1" (fun _ : String => ([] : List Neighbor))
        (fun _ => ⟨100, 500, 1⟩) ≠ [makeSeqFeature "g1" (fun _ => ⟨100, 500, 1⟩)] :=
  ⟨rfl, by decide⟩

/-- C3 (amended): in gene-centered assembly, an empty neighbor-lookup result
makes the assembler return the empty list (the gene itself is not added). -/
theorem gene_neighbors_empty (genename : String) (gn : String → List Neighbor)
    (gi : String → GeneInfo) (h : gn genename = []) :
    makeSeqFeaturesForGeneNeighbors genename gn gi = [] := by
  simp only [makeSeqFeaturesForGeneNeighbors, h, List.map_nil]

/-- Witness for the amended C3 at a concrete empty lookup. -/
theorem gene_neighbors_empty_witness :
    (fun _ : String => ([] : List Neighbor)) "g" = [] ∧
    makeSeqFeaturesForGeneNeighbors "g" (fun _ : String => ([] : List Neighbor))
      (fun _ => ⟨1, 2, 1⟩) = [] :=
  ⟨rfl, gene_neighbors_empty "g" (fun _ => []) (fun _ => ⟨1, 2, 1⟩) rfl⟩

/-- C6 (code evaluated at the failing input): rendering with a center id
absent from the feature list fails with `UnboundLocalError` (the center
variables of lines 160-163 are never assigned and line 175 reads them), not
with the `CenterFeatureNotFoundError` the spec requires. -/
theorem make_region_drawing_missing_center :
    make_region_drawing [⟨100, 500, 1, "a", -1⟩] (fun _ => some (0, 0, 0)) "b" 400 =
      Except.error PyErr.unboundLocal ∧
    PyErr.unboundLocal ≠ PyErr.centerFeatureNotFound :=
  ⟨rfl, by decide⟩

/-- C7: the region-extent computation fails with the empty-input error on the
empty feature list, and succeeds on every non-empty list. -/
theorem regionlength_empty_fails :
    regionlength [] = Except.error PyErr.emptyInput ∧
    ∀ l : List Feature, l ≠ [] → ∃ p, regionlength l = Except.ok p := by
  refine ⟨rfl, fun l h => ?_⟩
  match l with
  | [] => exact absurd rfl h
  | f :: fs => exact ⟨_, rfl⟩

/-- Witness for C7's non-empty half at a one-feature list. -/
theorem regionlength_empty_fails_witness :
    ([⟨3, 9, 1, "a", 0⟩] : List Feature) ≠ [] ∧
    ∃ p, regionlength [⟨3, 9, 1, "a", 0⟩] = Except.ok p :=
  ⟨by decide, regionlength_empty_fails.2 [⟨3, 9, 1, "a", 0⟩] (by decide)⟩

/-- C8: in hit-centered assembly, when the gene search over the widened window
returns no genes, the assembler returns exactly the one-element list holding
the synthetic hit feature (whose cluster id is the sentinel -1) together with
a warning, and does not fail. -/
theorem tblastn_no_neighbors (tblastn_id contig₀ : String)
    (sanitizedToNot : String → Option String)
    (split : String → Except PyErr (String × ℤ × ℤ))
    (gir : String → ℤ → ℤ → List String)
    (gim : List String → List GeneInfoRow)
    (gnbr : Option String → List Neighbor)
    (gi1 : String → GeneInfo) (N start stop : ℤ)
    (hsplit : split tblastn_id = Except.ok (contig₀, start, stop))
    (hempty : gir ((sanitizedToNot contig₀).getD contig₀) (start - N) (stop + N) = []) :
    makeSeqObjectsForTblastnNeighbors tblastn_id sanitizedToNot split gir gim gnbr gi1 N =
      Except.ok ([tblastnFeature tblastn_id start stop],
        [noNeighborsWarning tblastn_id N ((sanitizedToNot contig₀).getD contig₀)]) ∧
    (tblastnFeature tblastn_id start stop).cluster_id = -1 := by
  refine ⟨?_, rfl⟩
  unfold makeSeqObjectsForTblastnNeighbors
  rw [hsplit]
  simp [hempty]

/-- Witness for C8 with concrete collaborators finding no genes. -/
theorem tblastn_no_neighbors_witness :
    (fun _ : String => Except.ok (ε := PyErr) ("c", (10 : ℤ), (20 : ℤ))) "c_10_20" =
      Except.ok ("c", (10 : ℤ), (20 : ℤ)) ∧
    (fun _ : String => fun _ _ : ℤ => ([] : List String))
      (((fun _ : String => (none : Option String)) "c").getD "c") (10 - 200000) (20 + 200000) = [] ∧
    makeSeqObjectsForTblastnNeighbors "c_10_20" (fun _ => none)
        (fun _ => Except.ok ("c", 10, 20)) (fun _ _ _ => []) (fun _ => [])
        (fun _ => []) (fun _ => ⟨0, 0, 1⟩) 200000 =
      Except.ok ([tblastnFeature "c_10_20" 10 20],
        [noNeighborsWarning "c_10_20" 200000 "c"]) ∧
    (tblastnFeature "c_10_20" 10 20).cluster_id = -1 :=
  ⟨rfl, rfl,
    (tblastn_no_neighbors "c_10_20" "c" (fun _ => none) (fun _ => Except.ok ("c", 10, 20))
      (fun _ _ _ => []) (fun _ => []) (fun _ => []) (fun _ => ⟨0, 0, 1⟩)
      200000 10 20 rfl rfl).1,
    rfl⟩

set_option maxRecDepth 40000 in
/-- `'%02x'` on a byte value is exactly its two hex digits. -/
theorem fmt02x_byte : ∀ k : Nat, k < 256 → fmt02x (k : ℤ) = hex2 k := by decide

/-- On a channel in `[0,1]`, the code's `int(x*255)` is `⌊x*255⌋`, a byte,
and its `'%02x'` rendering is the two hex digits of that floor. -/
theorem fmt02x_pyint (x : ℚ) (h0 : 0 ≤ x) (h1 : x ≤ 1) :
    fmt02x (pyint (x * 255)) = hex2 (⌊x * 255⌋).toNat := by
  have hx : 0 ≤ x * 255 := by positivity
  have hpy : pyint (x * 255) = ⌊x * 255⌋ := if_pos hx
  have h0' : 0 ≤ ⌊x * 255⌋ := Int.floor_nonneg.mpr hx
  have h255 : ⌊x * 255⌋ ≤ 255 := by
    have hle : x * 255 ≤ 255 := by nlinarith
    have := Int.floor_le_floor hle
    simpa using this
  have hk : (⌊x * 255⌋).toNat < 256 := by omega
  rw [hpy, ← Int.toNat_of_nonneg h0']
  exact fmt02x_byte _ hk

/-- C9 (counterexample): at channel value 1/2 the code truncates
`int(0.5*255) = 127` (hex `7f`) while the spec's `round(0.5*255) = 128`
(hex `80`); the two conversions disagree. -/
theorem RGB_to_hex_not_round :
    RGB_to_hex [((1 : ℚ) / 2, 1 / 2, 1 / 2)] = ["#7f7f7f"] ∧
    RGB_to_hex_round [((1 : ℚ) / 2, 1 / 2, 1 / 2)] = ["#808080"] ∧
    RGB_to_hex [((1 : ℚ) / 2, 1 / 2, 1 / 2)] ≠
      RGB_to_hex_round [((1 : ℚ) / 2, 1 / 2, 1 / 2)] := by
  have h1 : pyint ((1 / 2 : ℚ) * 255) = 127 := by
    norm_num [pyint]
  have h2 : round ((1 / 2 : ℚ) * 255) = 128 := by
    norm_num [round_eq]
  refine ⟨?_, ?_, ?_⟩
  · simp only [RGB_to_hex, List.map_cons, List.map_nil, h1]
    decide
  · simp only [RGB_to_hex_round, List.map_cons, List.map_nil, h2]
    decide
  · simp only [RGB_to_hex, RGB_to_hex_round, List.map_cons, List.map_nil, h1, h2]
    decide

/-- C9 (amended): for channels in `[0,1]`, `RGB_to_hex` produces `#RRGGBB`
where each two-digit zero-padded lowercase hex channel encodes
`int(channel*255)`, i.e. `⌊channel*255⌋` — truncation, not rounding. -/
theorem RGB_to_hex_truncates (l : List (ℚ × ℚ × ℚ))
    (hbound : ∀ t ∈ l, 0 ≤ t.1 ∧ t.1 ≤ 1 ∧ 0 ≤ t.2.1 ∧ t.2.1 ≤ 1 ∧
      0 ≤ t.2.2 ∧ t.2.2 ≤ 1) :
    RGB_to_hex l = l.map (fun t =>
      "#" ++ hex2 (⌊t.1 * 255⌋).toNat ++ hex2 (⌊t.2.1 * 255⌋).toNat ++
        hex2 (⌊t.2.2 * 255⌋).toNat) := by
  simp only [RGB_to_hex, List.map_map]
  refine List.map_congr_left (fun t ht => ?_)
  obtain ⟨h1, h2, h3, h4, h5, h6⟩ := hbound t ht
  simp only [Function.comp]
  rw [fmt02x_pyint _ h1 h2, fmt02x_pyint _ h3 h4, fmt02x_pyint _ h5 h6]

/-- Witness for the amended C9 at the triple (0, 1, 1). -/
theorem RGB_to_hex_truncates_witness :
    (∀ t ∈ [((0 : ℚ), (1 : ℚ), (1 : ℚ))], 0 ≤ t.1 ∧ t.1 ≤ 1 ∧ 0 ≤ t.2.1 ∧
      t.2.1 ≤ 1 ∧ 0 ≤ t.2.2 ∧ t.2.2 ≤ 1) ∧
    RGB_to_hex [((0 : ℚ), (1 : ℚ), (1 : ℚ))] =
      [((0 : ℚ), (1 : ℚ), (1 : ℚ))].map (fun t =>
        "#" ++ hex2 (⌊t.1 * 255⌋).toNat ++ hex2 (⌊t.2.1 * 255⌋).toNat ++
          hex2 (⌊t.2.2 * 255⌋).toNat) :=
  ⟨by decide, RGB_to_hex_truncates _ (by decide)⟩

/-- `numpy.unique` depends only on the set of values in its input. -/
theorem npUnique_eq_of_toFinset {l₁ l₂ : List ℤ} (h : l₁.toFinset = l₂.toFinset) :
    npUnique l₁ = npUnique l₂ := by
  have hperm : List.Perm l₁.dedup l₂.dedup := by
    rw [List.perm_ext_iff_of_nodup (List.nodup_dedup l₁) (List.nodup_dedup l₂)]
    intro a
    rw [List.mem_dedup, List.mem_dedup, ← List.mem_toFinset, ← List.mem_toFinset, h]
  exact List.eq_of_perm_of_sorted
    ((List.perm_insertionSort _ _).trans (hperm.trans (List.perm_insertionSort _ _).symm))
    (List.sorted_insertionSort _ _) (List.sorted_insertionSort _ _)

/-- C4: the cluster-color assignment is deterministic and order-independent:
two inputs with the same set of distinct cluster ids get identical color
maps. -/
theorem colormap_deterministic (l₁ l₂ : List ℤ) (h : l₁.toFinset = l₂.toFinset) :
    colormap l₁ = colormap l₂ := by
  unfold colormap
  rw [npUnique_eq_of_toFinset h]

/-- Witness for C4: `[1, 2]` and `[2, 1, 1]` carry the same id set. -/
theorem colormap_deterministic_witness :
    ([1, 2] : List ℤ).toFinset = ([2, 1, 1] : List ℤ).toFinset ∧
    colormap [1, 2] = colormap [2, 1, 1] :=
  ⟨by decide, colormap_deterministic [1, 2] [2, 1, 1] (by decide)⟩

/-- Cancel `v` in the `p`-component `v*(1-s)` of an HSV sector. -/
theorem hsv_cancel_p {v a b : ℚ} (hv : v ≠ 0) (h : v * (1 - a) = v * (1 - b)) :
    a = b := by
  have h' := mul_left_cancel₀ hv h
  linarith

/-- Cancel `v` and `s` in the `q`-component `v*(1-s*f)` of an HSV sector. -/
theorem hsv_cancel_q {v s f₁ f₂ : ℚ} (hv : v ≠ 0) (hs : s ≠ 0)
    (h : v * (1 - s * f₁) = v * (1 - s * f₂)) : f₁ = f₂ := by
  have h' := mul_left_cancel₀ hv h
  have h'' : s * f₁ = s * f₂ := by linarith
  exact mul_left_cancel₀ hs h''

/-- Cancel `v` and `s` in the `t`-component `v*(1-s*(1-f))` of an HSV
sector. -/
theorem hsv_cancel_t {v s f₁ f₂ : ℚ} (hv : v ≠ 0) (hs : s ≠ 0)
    (h : v * (1 - s * (1 - f₁)) = v * (1 - s * (1 - f₂))) : f₁ = f₂ := by
  have h' := mul_left_cancel₀ hv h
  have h'' : s * (1 - f₁) = s * (1 - f₂) := by linarith
  have h''' := mul_left_cancel₀ hs h''
  linarith

set_option maxHeartbeats 1600000 in
/-- Two HSV sector evaluations with positive value and saturations and
fractional parts in `[0,1)` agree only when sector, saturation and fractional
part all agree. -/
theorem hsvSector_inj (v s₁ s₂ f₁ f₂ : ℚ) (i₁ i₂ : ℕ)
    (hv : 0 < v) (hs₁ : 0 < s₁) (hs₂ : 0 < s₂)
    (hf₁0 : 0 ≤ f₁) (hf₁1 : f₁ < 1) (hf₂0 : 0 ≤ f₂) (hf₂1 : f₂ < 1)
    (hi₁ : i₁ < 6) (hi₂ : i₂ < 6)
    (heq : hsvSector i₁ v s₁ f₁ = hsvSector i₂ v s₂ f₂) :
    i₁ = i₂ ∧ s₁ = s₂ ∧ f₁ = f₂ := by
  have hv0 : v ≠ 0 := ne_of_gt hv
  have hs10 : s₁ ≠ 0 := ne_of_gt hs₁
  have A₁ : 0 < v * s₁ := mul_pos hv hs₁
  have A₂ : 0 < v * s₂ := mul_pos hv hs₂
  have B₁ : 0 ≤ v * s₁ * f₁ := mul_nonneg A₁.le hf₁0
  have B₂ : 0 ≤ v * s₂ * f₂ := mul_nonneg A₂.le hf₂0
  have C₁ : 0 < v * s₁ * (1 - f₁) := mul_pos A₁ (by linarith)
  have C₂ : 0 < v * s₂ * (1 - f₂) := mul_pos A₂ (by linarith)
  interval_cases i₁ <;> interval_cases i₂ <;>
    simp only [hsvSector, Prod.mk.injEq] at heq <;>
    obtain ⟨e₁, e₂, e₃⟩ := heq <;>
    first
    | exact ⟨rfl, hsv_cancel_p hv0 e₃,
        by rw [← hsv_cancel_p hv0 e₃] at e₂; exact hsv_cancel_t hv0 hs10 e₂⟩
    | exact ⟨rfl, hsv_cancel_p hv0 e₃,
        by rw [← hsv_cancel_p hv0 e₃] at e₁; exact hsv_cancel_q hv0 hs10 e₁⟩
    | exact ⟨rfl, hsv_cancel_p hv0 e₁,
        by rw [← hsv_cancel_p hv0 e₁] at e₃; exact hsv_cancel_t hv0 hs10 e₃⟩
    | exact ⟨rfl, hsv_cancel_p hv0 e₁,
        by rw [← hsv_cancel_p hv0 e₁] at e₂; exact hsv_cancel_q hv0 hs10 e₂⟩
    | exact ⟨rfl, hsv_cancel_p hv0 e₂,
        by rw [← hsv_cancel_p hv0 e₂] at e₁; exact hsv_cancel_t hv0 hs10 e₁⟩
    | exact ⟨rfl, hsv_cancel_p hv0 e₂,
        by rw [← hsv_cancel_p hv0 e₂] at e₃; exact hsv_cancel_q hv0 hs10 e₃⟩
    | (exfalso; nlinarith [e₁, e₂, e₃, A₁, A₂, B₁, B₂, C₁, C₂])

/-- `colorsys.hsv_to_rgb` is injective in (hue, saturation) on
`[0,1) × (0,∞)` for a fixed positive value. -/
theorem hsv_to_rgb_inj (h₁ h₂ s₁ s₂ v : ℚ) (hv : 0 < v)
    (h₁0 : 0 ≤ h₁) (h₁1 : h₁ < 1) (h₂0 : 0 ≤ h₂) (h₂1 : h₂ < 1)
    (hs₁ : 0 < s₁) (hs₂ : 0 < s₂)
    (heq : hsv_to_rgb h₁ s₁ v = hsv_to_rgb h₂ s₂ v) : h₁ = h₂ ∧ s₁ = s₂ := by
  have hp₁ : pyint (h₁ * 6) = ⌊h₁ * 6⌋ := if_pos (by positivity)
  have hp₂ : pyint (h₂ * 6) = ⌊h₂ * 6⌋ := if_pos (by positivity)
  have hfl₁0 : 0 ≤ ⌊h₁ * 6⌋ := Int.floor_nonneg.mpr (by positivity)
  have hfl₂0 : 0 ≤ ⌊h₂ * 6⌋ := Int.floor_nonneg.mpr (by positivity)
  have hfl₁6 : ⌊h₁ * 6⌋ < 6 := Int.floor_lt.mpr (by push_cast; linarith)
  have hfl₂6 : ⌊h₂ * 6⌋ < 6 := Int.floor_lt.mpr (by push_cast; linarith)
  have hm₁ : ⌊h₁ * 6⌋ % 6 = ⌊h₁ * 6⌋ := Int.emod_eq_of_lt hfl₁0 hfl₁6
  have hm₂ : ⌊h₂ * 6⌋ % 6 = ⌊h₂ * 6⌋ := Int.emod_eq_of_lt hfl₂0 hfl₂6
  rw [hsv_to_rgb, if_neg (ne_of_gt hs₁), hsv_to_rgb, if_neg (ne_of_gt hs₂),
    hp₁, hp₂, hm₁, hm₂] at heq
  have key := hsvSector_inj v s₁ s₂ (h₁ * 6 - ⌊h₁ * 6⌋) (h₂ * 6 - ⌊h₂ * 6⌋)
    (⌊h₁ * 6⌋).toNat (⌊h₂ * 6⌋).toNat hv hs₁ hs₂
    (by exact_mod_cast Int.fract_nonneg (h₁ * 6))
    (by exact_mod_cast Int.fract_lt_one (h₁ * 6))
    (by exact_mod_cast Int.fract_nonneg (h₂ * 6))
    (by exact_mod_cast Int.fract_lt_one (h₂ * 6))
    (by omega) (by omega) heq
  obtain ⟨hi, hs, hf⟩ := key
  refine ⟨?_, hs⟩
  have hi' : ⌊h₁ * 6⌋ = ⌊h₂ * 6⌋ := by omega
  have hcast : ((⌊h₁ * 6⌋ : ℤ) : ℚ) = ((⌊h₂ * 6⌋ : ℤ) : ℚ) := by exact_mod_cast hi'
  linarith [hf, hcast]

theorem hueList_nodup (perm : ℕ) : (hueList perm).Nodup := by
  unfold hueList
  refine List.Nodup.map_on ?_ (List.nodup_range perm)
  intro x hx y hy hxy
  rw [List.mem_range] at hx
  have hp : ((perm : ℚ)) ≠ 0 := Nat.cast_ne_zero.mpr (by omega)
  field_simp at hxy
  exact_mod_cast hxy

theorem satList_nodup (perm : ℕ) : (satList perm).Nodup := by
  unfold satList
  refine List.Nodup.map_on ?_ (List.nodup_range perm)
  intro x hx y hy hxy
  rw [List.mem_range] at hx
  have hp : ((perm : ℚ)) ≠ 0 := Nat.cast_ne_zero.mpr (by omega)
  have hxy' : (x : ℚ) / (perm : ℚ) = (y : ℚ) / (perm : ℚ) := by linarith
  field_simp at hxy'
  exact_mod_cast hxy'

theorem hsGrid_nodup (perm : ℕ) : (hsGrid perm).Nodup :=
  List.Nodup.product (hueList_nodup perm) (satList_nodup perm)

/-- Every grid point has hue in `[0,1)` and positive saturation. -/
theorem hsGrid_bounds (perm : ℕ) (p : ℚ × ℚ) (hp : p ∈ hsGrid perm) :
    0 ≤ p.1 ∧ p.1 < 1 ∧ 0 < p.2 := by
  obtain ⟨h, s⟩ := p
  rw [hsGrid] at hp
  obtain ⟨hh, hs⟩ := List.mem_product.mp hp
  simp only [hueList, List.mem_map, List.mem_range] at hh
  simp only [satList, List.mem_map, List.mem_range] at hs
  obtain ⟨x, hx, rfl⟩ := hh
  obtain ⟨y, hy, rfl⟩ := hs
  have hpos : (0 : ℚ) < perm := by exact_mod_cast (show 0 < perm by omega)
  refine ⟨by positivity, ?_, by positivity⟩
  rw [div_lt_one hpos]
  exact_mod_cast hx

/-- In a zip against a duplicate-free second list, entries with different
first components have different second components. -/
theorem zip_snd_ne {α β : Type} : ∀ {l₁ : List α} {l₂ : List β},
    l₂.Nodup → ∀ p ∈ l₁.zip l₂, ∀ q ∈ l₁.zip l₂, p.1 ≠ q.1 → p.2 ≠ q.2 := by
  intro l₁
  induction l₁ with
  | nil => intro l₂ h₂ p hp; simp at hp
  | cons a l₁ ih =>
    intro l₂ h₂ p hp q hq hne
    match l₂ with
    | [] => simp at hp
    | b :: l₂ =>
      obtain ⟨p₁, p₂⟩ := p
      obtain ⟨q₁, q₂⟩ := q
      rw [List.zip_cons_cons] at hp hq
      obtain ⟨hb, h₂'⟩ := List.nodup_cons.mp h₂
      rcases List.mem_cons.mp hp with hpe | hp
      · cases hpe
        rcases List.mem_cons.mp hq with hqe | hq
        · cases hqe
          exact absurd rfl hne
        · intro hcontra
          refine hb ?_
          show b ∈ l₂
          rw [show ((a, b) : α × β).2 = b from rfl] at hcontra
          rw [hcontra]
          exact (List.of_mem_zip hq).2
      · rcases List.mem_cons.mp hq with hqe | hq
        · cases hqe
          intro hcontra
          refine hb ?_
          show b ∈ l₂
          rw [show ((a, b) : α × β).2 = b from rfl] at hcontra
          rw [← hcontra]
          exact (List.of_mem_zip hp).2
        · exact ih h₂' (p₁, p₂) hp (q₁, q₂) hq hne

/-- The color list built by `colormap` — `hsv_to_rgb` over the first `N` grid
points at value 0.7 — has no duplicates. -/
theorem colormap_colors_nodup (perm N : ℕ) :
    (((hsGrid perm).take N).map (fun p => hsv_to_rgb p.1 p.2 (7 / 10))).Nodup := by
  refine List.Nodup.map_on ?_
    (List.Nodup.sublist (List.take_sublist _ _) (hsGrid_nodup perm))
  intro p hp q hq hpq
  obtain ⟨hp1, hp2, hp3⟩ := hsGrid_bounds perm p (List.mem_of_mem_take hp)
  obtain ⟨hq1, hq2, hq3⟩ := hsGrid_bounds perm q (List.mem_of_mem_take hq)
  obtain ⟨hh, hs⟩ := hsv_to_rgb_inj p.1 q.1 p.2 q.2 (7 / 10) (by norm_num)
    hp1 hp2 hq1 hq2 hp3 hq3 hpq
  exact Prod.ext hh hs

/-- C5: the cluster-color assignment never gives two distinct cluster ids the
same color (stated as required for every input with at most 10000 distinct
ids; the proof does not even need the bound). -/
theorem colormap_injective (l : List ℤ) (hN : (npUnique l).length ≤ 10000) :
    (colormap l).Pairwise (fun p q => p.1 ≠ q.1 → p.2 ≠ q.2) := by
  unfold colormap
  exact List.pairwise_of_forall_mem_list
    (zip_snd_ne (colormap_colors_nodup _ _))

/-- Witness for C5 on the two-id input `[5, 7]`. -/
theorem colormap_injective_witness :
    (npUnique [5, 7]).length ≤ 10000 ∧
    (colormap [5, 7]).Pairwise (fun p q => p.1 ≠ q.1 → p.2 ≠ q.2) :=
  ⟨by decide, colormap_injective [5, 7] (by decide)⟩

/-- C10: the synthetic tBLASTn hit feature has strand +1 exactly when
`start < stop`, and strand -1 otherwise (in particular when the parsed start
and stop coincide). -/
theorem tblastnFeature_strand (tblastn_id : String) (start stop : ℤ) :
    ((tblastnFeature tblastn_id start stop).strand = 1 ↔ start < stop) ∧
    ((tblastnFeature tblastn_id start stop).strand = -1 ↔ ¬ start < stop) := by
  unfold tblastnFeature
  by_cases h : start < stop <;> simp [h]

end BioPythonGraphics
